import Mathlib

/-!
Verification of the `wbb_scraper` repository (`src/CoachScraper.py`).

The development shallowly embeds the scraper's core functions:

* `fetch_html` — bounded-retry HTTP fetch with failure classification
  (the network is abstracted as a map from attempt number to outcome);
* `scrape_generic_table` — selector-driven record extraction from a parsed
  page (the external HTML/CSS engine is abstracted: a parsed page is a
  finite map from selector strings to their match lists, mirroring the
  `select` / `select_one` primitives the code calls);
* `parse_site` — per-site orchestration of fetch + extraction, with the
  possibility of a raised exception modelled by `Except`;
* `scrape_all` — the per-site failure-isolating fold over all sites.

Python strings are `String`, Python `None`-able values are `Option`,
Python dicts holding records are insertion-ordered association lists with
in-place update (`dictInsert`), and Python list indexing (including
negative indices) is `pyListGet`.
-/

namespace WbbScraper

/-! ## Python string primitives, modelled over character lists -/

/-- Python `str.lower()`. -/
def pyLower (s : String) : String :=
  String.mk (s.data.map Char.toLower)

/-- Python `str.strip()`: remove whitespace from both ends. -/
def pyTrim (s : String) : String :=
  String.mk
    (((s.data.dropWhile Char.isWhitespace).reverse.dropWhile Char.isWhitespace).reverse)

/-- Python `str.capitalize()`: first character upper-cased, the rest lower-cased. -/
def pyCapitalize (s : String) : String :=
  match s.data with
  | [] => ""
  | c :: cs => String.mk (c.toUpper :: cs.map Char.toLower)

/-- Python `s.endswith(suf)`. -/
def pyEndsWith (s suf : String) : Bool :=
  suf.data.isSuffixOf s.data

/-- Python `s[:-n]` for `n ≥ 0`: drop the last `n` characters. -/
def pyDropRight (s : String) (n : Nat) : String :=
  String.mk (s.data.take (s.data.length - n))

/-- One left-to-right, non-overlapping replacement pass over a character
list, with fuel (`fuel ≥ length` suffices since every step consumes at
least one character). -/
def pyReplaceAux (pat repl : List Char) : Nat → List Char → List Char
  | 0, cs => cs
  | _ + 1, [] => []
  | fuel + 1, c :: cs =>
    if pat.isPrefixOf (c :: cs) then
      repl ++ pyReplaceAux pat repl fuel (List.drop pat.length (c :: cs))
    else
      c :: pyReplaceAux pat repl fuel cs

/-- Python `s.replace(pat, repl)`: every non-overlapping occurrence of
`pat`, scanning left to right, is replaced by `repl`.  (The scraper only
ever replaces the non-empty literal `"mailto:"`; the empty-pattern edge
case is not modelled.) -/
def pyReplace (s pat repl : String) : String :=
  if pat.data.isEmpty then s
  else String.mk (pyReplaceAux pat.data repl.data s.data.length s.data)

/-- Python list indexing `l[i]`: non-negative indices from the front,
negative indices from the end, `none` when out of range (an `IndexError`). -/
def pyListGet {α : Type} (l : List α) (i : Int) : Option α :=
  if 0 ≤ i then l.get? i.toNat
  else if 0 ≤ (l.length : Int) + i then l.get? ((l.length : Int) + i).toNat
  else none

/-! ## The parsed-page abstraction

CSS-selector matching is delegated by the source to BeautifulSoup and is
out of scope; a parsed node is therefore abstracted as the finite map
from selector strings to what its `select` / `select_one` calls return. -/

/-- A matched HTML element: its attribute map and its (already extracted)
text content. -/
structure Tag where
  attrs : List (String × String)
  text : String
deriving DecidableEq, Repr

/-- A row element, as `scrape_generic_table` uses it: for each selector
string, the first element `row.select_one(sel)` would return (absent key
means no match). -/
abbrev Row := List (String × Tag)

/-- `row.select_one(sel)` — first match or `None`. -/
def rowSelectOne (row : Row) (sel : String) : Option Tag :=
  row.lookup sel

/-- A container element: for each selector string, the list
`container.select(sel)` of row elements it matches. -/
abbrev Container := List (String × List Row)

/-- `container.select(sel)` — all matches, `[]` when none. -/
def containerSelect (c : Container) (sel : String) : List Row :=
  (c.lookup sel).getD []

/-- A parsed page (`soup`): for each selector string, the list
`soup.select(sel)` of container elements it matches. -/
abbrev Soup := List (String × List Container)

/-- `soup.select(sel)` — all matches, `[]` when none. -/
def soupSelect (s : Soup) (sel : String) : List Container :=
  (s.lookup sel).getD []

/-! ## Configuration -/

/-- A field descriptor: either a bare selector string (text-extraction
mode) or a `\x7bselector, attribute\x7d` dictionary.  In the dictionary form the
`attribute` entry may be absent (`config.get('attribute')` returns `None`),
in which case the code falls back to text extraction.  A dictionary with an
absent `selector` entry would crash BeautifulSoup and is not modelled. -/
inductive FieldConfig where
  | plain (selector : String)
  | attrField (selector : String) (attrName : Option String)
deriving DecidableEq, Repr

/-- The selector string the code resolves from a field descriptor. -/
def fieldSelector : FieldConfig → String
  | .plain s => s
  | .attrField s _ => s

/-- The `attribute_name` the code resolves from a field descriptor
(`None` for a bare selector). -/
def fieldAttr : FieldConfig → Option String
  | .plain _ => none
  | .attrField _ a => a

/-- One table block of a site's configuration. `wrapper_index` is read
with `config.get('wrapper_index', 0)`, hence optional with default 0. -/
structure TableConfig where
  table_container_selector : String
  wrapper_index : Option Int
  row_selector : String
  field_selectors : List (String × FieldConfig)
deriving DecidableEq, Repr

/-! ## Records -/

/-- A record is a Python dict from field name to string-or-`None`,
modelled as an insertion-ordered association list. -/
abbrev Record := List (String × Option String)

/-- Python dict assignment `m[k] = v`: update in place when the key
exists, append otherwise. -/
def dictInsert (m : Record) (k : String) (v : Option String) : Record :=
  if m.any (fun p => p.1 == k) then
    m.map (fun p => if p.1 == k then (k, v) else p)
  else
    m ++ [(k, v)]

/-- The text / email branch of field extraction: `tag.get_text(strip=True)`
unless the field is named exactly `email` and the tag has an `href`
attribute, in which case `tag['href'].replace('mailto:', '').strip()`. -/
def textOrEmail (fieldName : String) (tag : Tag) : Option String :=
  if fieldName == "email" then
    match tag.attrs.lookup "href" with
    | some href => some (pyTrim (pyReplace href "mailto:" ""))
    | none => some (pyTrim tag.text)
  else
    some (pyTrim tag.text)

/-- The per-field body of `scrape_generic_table`'s row loop: resolve the
descriptor, `select_one` within the row, then attribute lookup when a
truthy attribute name is configured, else the text / email branch; a
selector miss yields `None`. -/
def extractField (fieldName : String) (fc : FieldConfig) (row : Row) : Option String :=
  match rowSelectOne row (fieldSelector fc) with
  | none => none
  | some tag =>
    match fieldAttr fc with
    | some a => if a == "" then textOrEmail fieldName tag else tag.attrs.lookup a
    | none => textOrEmail fieldName tag

/-- One row's record: every configured field stored under its lower-cased
name, in configuration order. -/
def mkRecord (fields : List (String × FieldConfig)) (row : Row) : Record :=
  fields.foldl (fun member p => dictInsert member (pyLower p.1) (extractField p.1 p.2 row)) []

/-! ## `scrape_generic_table` -/

/-- `CoachScraper.scrape_generic_table`.  Python exceptions are modelled
by `Except.error`; the only raising path reachable through this embedding
is the `IndexError` of a negative index whose magnitude exceeds the match
count. -/
def scrape_generic_table (soup : Soup) (cfg : TableConfig) : Except String (List Record) :=
  let all_tables := soupSelect soup cfg.table_container_selector
  let table_index := cfg.wrapper_index.getD 0
  if all_tables = [] ∨ (all_tables.length : Int) ≤ table_index then
    Except.ok []
  else
    match pyListGet all_tables table_index with
    | none => Except.error "IndexError: list index out of range"
    | some table =>
      Except.ok ((containerSelect table cfg.row_selector).map (mkRecord cfg.field_selectors))

/-! ## `fetch_html`

The network is abstracted as a map from attempt number (0-based) to the
outcome of `requests.get` + `raise_for_status` on that attempt.  The
result records the content, the number of attempts actually made, and the
number of `time.sleep(delay_seconds)` calls performed. -/

/-- Outcome of one request attempt: a 2xx body, an `HTTPError` raised by
`raise_for_status` carrying the status code, or a transport-level
`RequestException` (timeout, DNS failure, connection reset). -/
inductive FetchOutcome where
  | success (body : String)
  | httpError (status : Nat)
  | netError
deriving DecidableEq, Repr

/-- What a call to `fetch_html` did: the returned string, how many request
attempts were made, and how many inter-retry sleeps were performed. -/
structure FetchResult where
  content : String
  attempts : Nat
  sleeps : Nat
deriving DecidableEq, Repr

/-- The body of `fetch_html`'s `for attempt in range(max_retries)` loop,
counting down the remaining iterations; `attempt` is the current 0-based
attempt index.  `remaining = 0` is the fall-through `return ""` after the
loop (reached only when `max_retries = 0`). -/
def fetchGo (net : Nat → FetchOutcome) : Nat → Nat → FetchResult
  | _, 0 => { content := "", attempts := 0, sleeps := 0 }
  | attempt, remaining + 1 =>
    match net attempt with
    | .success body => { content := body, attempts := 1, sleeps := 0 }
    | .httpError s =>
      if 400 ≤ s ∧ s < 500 then
        { content := "", attempts := 1, sleeps := 0 }
      else if remaining = 0 then
        { content := "", attempts := 1, sleeps := 0 }
      else
        { content := (fetchGo net (attempt + 1) remaining).content,
          attempts := (fetchGo net (attempt + 1) remaining).attempts + 1,
          sleeps := (fetchGo net (attempt + 1) remaining).sleeps + 1 }
    | .netError =>
      if remaining = 0 then
        { content := "", attempts := 1, sleeps := 0 }
      else
        { content := (fetchGo net (attempt + 1) remaining).content,
          attempts := (fetchGo net (attempt + 1) remaining).attempts + 1,
          sleeps := (fetchGo net (attempt + 1) remaining).sleeps + 1 }

/-- `CoachScraper.fetch_html`: empty URL short-circuits, otherwise run up
to `maxRetries` attempts.  The function is total — it always returns
content-or-empty and never raises to the caller. -/
def fetch_html (net : Nat → FetchOutcome) (url : String) (maxRetries : Nat) : FetchResult :=
  if url = "" then { content := "", attempts := 0, sleeps := 0 }
  else fetchGo net 0 maxRetries

/-! ## `parse_site` -/

/-- One site's configuration: whether a `handler` key is present, the
optional `url` entry, and the remaining entries that are table blocks.
(Non-table scalar entries such as `url` itself never end in `_TABLE` and
are skipped by the code's filter, so only table-shaped entries are
carried.) -/
structure SiteConfig where
  handler : Bool
  url : Option String
  entries : List (String × TableConfig)

/-- `self.fetch_html(config.get("url"))` as `parse_site` sees it: `None`
or an empty URL yields empty content, otherwise the fetched content for
that URL.  `fetch` abstracts `fetch_html`'s content (which is total). -/
def fetchContent (fetch : String → String) (url : Option String) : String :=
  match url with
  | none => ""
  | some u => if u = "" then "" else fetch u

/-- The `for table_key, config in config.items()` loop over table blocks:
scrape each block (an exception propagates), then stamp every record's
`staff_type` with `table_key[:-6].capitalize()`. -/
def collectBlocks (soup : Soup) : List (String × TableConfig) → Except String (List (List Record))
  | [] => Except.ok []
  | (key, tc) :: rest =>
    match scrape_generic_table soup tc with
    | .error e => Except.error e
    | .ok data =>
      let data := data.map (fun d => dictInsert d "staff_type" (some (pyCapitalize (pyDropRight key 6))))
      match collectBlocks soup rest with
      | .error e => Except.error e
      | .ok tail => Except.ok (data :: tail)

/-- `CoachScraper.parse_site`.  `soupOf` abstracts `BeautifulSoup(html)`.
A handler-marked site or empty fetched content yields an empty table.
Otherwise every `*_TABLE` entry is scraped and stamped, every record gets
the `school` column, and the per-block tables are concatenated — via
`pd.concat` when there are at least two blocks, and via `staff_data[0]`
otherwise, which raises `IndexError` when there are zero blocks. -/
def parse_site (fetch : String → String) (soupOf : String → Soup)
    (school : String) (cfg : SiteConfig) : Except String (List Record) :=
  if cfg.handler then Except.ok []
  else
    let html := fetchContent fetch cfg.url
    if html = "" then Except.ok []
    else
      let soup := soupOf html
      let blocks := cfg.entries.filter (fun p => pyEndsWith p.1 "_TABLE")
      match collectBlocks soup blocks with
      | .error e => Except.error e
      | .ok staff_data =>
        let staff_data := staff_data.map (fun t => t.map (fun r => dictInsert r "school" (some school)))
        if staff_data.length > 1 then Except.ok staff_data.flatten
        else
          match staff_data with
          | [] => Except.error "IndexError: list index out of range"
          | d :: _ => Except.ok d

/-! ## `scrape_all` -/

/-- `CoachScraper.scrape_all`: one `parse_site` per configured site; a
raised exception is caught at the per-site boundary (logged and skipped),
a returned table is appended to the results.  Worker completion order is
abstracted as submission order — the claims below do not depend on it. -/
def scrape_all (fetch : String → String) (soupOf : String → Soup)
    (sites : List (String × SiteConfig)) : List (List Record) :=
  sites.foldl
    (fun acc p =>
      match parse_site fetch soupOf p.1 p.2 with
      | .ok d => acc ++ [d]
      | .error _ => acc)
    []

/-! ## Fetcher theorems -/

/-- The retryable outcome class: server error (status ≥ 500) or a
transport-level failure. -/
def retryableOutcome : FetchOutcome → Prop
  | .success _ => False
  | .httpError s => 500 ≤ s
  | .netError => True

lemma fetchGo_all_retryable (net : Nat → FetchOutcome) :
    ∀ remaining attempt, 0 < remaining →
      (∀ i, attempt ≤ i → i < attempt + remaining → retryableOutcome (net i)) →
      fetchGo net attempt remaining =
        { content := "", attempts := remaining, sleeps := remaining - 1 } := by
  intro remaining
  induction remaining with
  | zero => intro _ h; omega
  | succ r ih =>
    intro attempt _ hall
    have h0 : retryableOutcome (net attempt) := hall attempt (le_refl _) (by omega)
    cases hnet : net attempt with
    | success body => rw [hnet] at h0; exact absurd h0 (by simp [retryableOutcome])
    | httpError s =>
      rw [hnet] at h0
      have hs : 500 ≤ s := h0
      simp only [fetchGo, hnet]
      rw [if_neg (show ¬(400 ≤ s ∧ s < 500) by omega)]
      rcases Nat.eq_zero_or_pos r with hr | hr
      · subst hr; simp
      · have ihr := ih (attempt + 1) hr (fun i hi1 hi2 => hall i (by omega) (by omega))
        rw [if_neg (by omega), ihr]
        simp only [FetchResult.mk.injEq]
        refine ⟨trivial, trivial, by omega⟩
    | netError =>
      simp only [fetchGo, hnet]
      rcases Nat.eq_zero_or_pos r with hr | hr
      · subst hr; simp
      · have ihr := ih (attempt + 1) hr (fun i hi1 hi2 => hall i (by omega) (by omega))
        rw [if_neg (by omega), ihr]
        simp only [FetchResult.mk.injEq]
        refine ⟨trivial, trivial, by omega⟩

/-- C2: a URL whose request yields a 4xx status aborts after exactly one
attempt — no retry, no sleep — returning empty content, and (since the
model is a total function into `FetchResult`) never raises to the
caller. -/
theorem fetch_client_error_aborts (net : Nat → FetchOutcome) (url : String)
    (maxRetries s : Nat) (hu : url ≠ "") (hm : 1 ≤ maxRetries)
    (hnet : net 0 = FetchOutcome.httpError s) (h4 : 400 ≤ s) (h5 : s < 500) :
    fetch_html net url maxRetries = { content := "", attempts := 1, sleeps := 0 } := by
  obtain ⟨r, rfl⟩ : ∃ r, maxRetries = r + 1 := ⟨maxRetries - 1, by omega⟩
  unfold fetch_html
  rw [if_neg hu]
  simp only [fetchGo, hnet]
  rw [if_pos (show 400 ≤ s ∧ s < 500 from ⟨h4, h5⟩)]

/-- Witness for C2 at status 404, three configured attempts. -/
theorem fetch_client_error_aborts_witness :
    fetch_html (fun _ => FetchOutcome.httpError 404) "https://a.edu" 3 =
      { content := "", attempts := 1, sleeps := 0 } :=
  fetch_client_error_aborts _ _ 3 404 (by decide) (by decide) rfl (by decide) (by decide)

/-- C3: when every attempt fails retryably (status ≥ 500 or transport
failure), `fetch_html` makes all `maxRetries` attempts, sleeping
`delay_seconds` between consecutive attempts (`maxRetries - 1` sleeps),
and returns empty after the final failure; and a URL answering 503 on
attempts 1 and 2 and 200 on attempt 3 returns the attempt-3 body, having
slept between attempts 1→2 and 2→3. -/
theorem fetch_retry_policy (net net2 : Nat → FetchOutcome) (url : String)
    (maxRetries : Nat) (body : String)
    (hu : url ≠ "") (hm : 1 ≤ maxRetries)
    (hall : ∀ i, i < maxRetries → retryableOutcome (net i))
    (h0 : net2 0 = FetchOutcome.httpError 503)
    (h1 : net2 1 = FetchOutcome.httpError 503)
    (h2 : net2 2 = FetchOutcome.success body) :
    fetch_html net url maxRetries =
      { content := "", attempts := maxRetries, sleeps := maxRetries - 1 } ∧
    fetch_html net2 url 3 = { content := body, attempts := 3, sleeps := 2 } := by
  constructor
  · unfold fetch_html
    rw [if_neg hu]
    exact fetchGo_all_retryable net maxRetries 0 hm (fun i _ hi => hall i (by omega))
  · unfold fetch_html
    rw [if_neg hu]
    simp [fetchGo, h0, h1, h2]

/-- Witness for C3: all-transport-failure run, and the 503/503/200
scenario. -/
theorem fetch_retry_policy_witness :
    fetch_html (fun _ => FetchOutcome.netError) "https://a.edu" 3 =
      { content := "", attempts := 3, sleeps := 2 } ∧
    fetch_html
        (fun i => match i with
          | 0 => FetchOutcome.httpError 503
          | 1 => FetchOutcome.httpError 503
          | _ => FetchOutcome.success "roster page")
        "https://a.edu" 3 =
      { content := "roster page", attempts := 3, sleeps := 2 } :=
  fetch_retry_policy _ _ "https://a.edu" 3 "roster page" (by decide) (by decide)
    (fun i _ => trivial) rfl rfl rfl

/-! ## Extractor theorems -/

/-- C4: with a non-negative `wrapper_index`, when the container selector
matches nothing, or the index is at least the number of matched
containers, `scrape_generic_table` takes the guard branch and returns an
empty record sequence — `Except.ok []`, not an error. -/
theorem extract_out_of_range_is_empty (soup : Soup) (cfg : TableConfig)
    (hnn : 0 ≤ cfg.wrapper_index.getD 0)
    (h : soupSelect soup cfg.table_container_selector = [] ∨
         ((soupSelect soup cfg.table_container_selector).length : Int) ≤
           cfg.wrapper_index.getD 0) :
    scrape_generic_table soup cfg = Except.ok [] := by
  unfold scrape_generic_table
  rw [if_pos h]

/-- Witness for C4: a page with no matching container, and a page whose
single match is below the configured index, via the same theorem's guard
disjunction. -/
theorem extract_out_of_range_is_empty_witness :
    scrape_generic_table []
      { table_container_selector := "div.staff", wrapper_index := none,
        row_selector := "tr", field_selectors := [] } = Except.ok [] :=
  extract_out_of_range_is_empty _ _ (by decide) (Or.inl rfl)

/-- C1 (code evaluation): a site with no `handler` marker, a URL whose
fetch returns non-empty content, and zero `*_TABLE` configuration keys
makes `parse_site` raise — the `else` branch evaluates `staff_data[0]` on
an empty list, an `IndexError` — instead of returning an empty table. -/
theorem parse_site_zero_table_blocks_raises :
    parse_site (fun _ => "<html><body>roster</body></html>") (fun _ => [])
        "Test University"
        { handler := false, url := some "https://example.edu/roster",
          entries := [("misc",
            { table_container_selector := "div", wrapper_index := none,
              row_selector := "tr", field_selectors := [] })] } =
      Except.error "IndexError: list index out of range" := by
  rfl

/-- C10: in attribute-extraction mode with a non-empty attribute name,
a matched element lacking the named attribute yields an absent (`none`)
value — no fallback to text and no email special-case, whatever the field
name and whatever other attributes (such as `href`) the element has. -/
theorem attr_mode_missing_attr_is_absent (fieldName sel a : String) (row : Row)
    (tag : Tag) (ha : a ≠ "") (hsel : rowSelectOne row sel = some tag)
    (hattr : tag.attrs.lookup a = none) :
    extractField fieldName (FieldConfig.attrField sel (some a)) row = none := by
  unfold extractField
  simp only [fieldSelector, fieldAttr, hsel, hattr]
  rw [if_neg (by simpa using ha)]

/-- Witness for C10: a field named `email` whose matched element does
carry an `href`, yet whose configured attribute `data-src` is missing,
extracts `none`. -/
theorem attr_mode_missing_attr_is_absent_witness :
    extractField "email" (FieldConfig.attrField "a.photo" (some "data-src"))
      [("a.photo", { attrs := [("href", "mailto:jane@doe.edu")], text := "Jane" })] =
      none :=
  attr_mode_missing_attr_is_absent "email" "a.photo" "data-src" _ _
    (by decide) rfl rfl

/-- The spec's wording of the email special case, for comparison with the
code: the hyperlink target with a leading `mailto:` scheme prefix
stripped, then surrounding whitespace trimmed. -/
def emailValueSpec (href : String) : String :=
  pyTrim (if "mailto:".data.isPrefixOf href.data then String.mk (href.data.drop 7) else href)

/-- C6 counterexample: on `href = "mailto:mailto:jane@doe.edu"` the code
extracts `"jane@doe.edu"` (every `mailto:` occurrence removed by
`str.replace`), while the claimed prefix-stripping would leave
`"mailto:jane@doe.edu"`. -/
theorem email_prefix_strip_counterexample :
    extractField "email" (FieldConfig.plain "a")
        [("a", { attrs := [("href", "mailto:mailto:jane@doe.edu")], text := "Jane" })] ≠
      some (emailValueSpec "mailto:mailto:jane@doe.edu") := by
  decide

/-- C6 (amended): for a field named exactly `email` in text-extraction
mode whose first matched element carries an `href`, the extracted value is
the `href` value with every occurrence of `mailto:` removed and then
whitespace-trimmed; on `mailto:jane@doe.edu` this yields exactly
`jane@doe.edu`. -/
theorem email_field_removes_mailto (row : Row) (sel : String) (tag : Tag)
    (href : String) (hsel : rowSelectOne row sel = some tag)
    (hhref : tag.attrs.lookup "href" = some href) :
    extractField "email" (FieldConfig.plain sel) row =
      some (pyTrim (pyReplace href "mailto:" "")) ∧
    pyTrim (pyReplace "mailto:jane@doe.edu" "mailto:" "") = "jane@doe.edu" := by
  refine ⟨?_, by decide⟩
  unfold extractField textOrEmail
  simp only [fieldSelector, fieldAttr, hsel, hhref]
  rfl

/-- Witness for C6's amended theorem at `href = "mailto:jane@doe.edu"`. -/
theorem email_field_removes_mailto_witness :
    extractField "email" (FieldConfig.plain "a.mail")
        [("a.mail", { attrs := [("href", "mailto:jane@doe.edu")], text := "Jane" })] =
      some (pyTrim (pyReplace "mailto:jane@doe.edu" "mailto:" "")) ∧
    pyTrim (pyReplace "mailto:jane@doe.edu" "mailto:" "") = "jane@doe.edu" :=
  email_field_removes_mailto _ "a.mail" _ "mailto:jane@doe.edu" rfl rfl

/-! ## Record-shape lemmas -/

lemma dictInsert_fresh (m : Record) (k : String) (v : Option String)
    (h : ∀ p ∈ m, p.1 ≠ k) : dictInsert m k v = m ++ [(k, v)] := by
  unfold dictInsert
  rw [if_neg]
  simp only [List.any_eq_true, beq_iff_eq, not_exists, not_and]
  intro p hp
  exact h p hp

lemma foldl_dictInsert_fresh (row : Row) (fields : List (String × FieldConfig)) :
    ∀ acc : Record,
      (∀ p ∈ fields, ∀ q ∈ acc, q.1 ≠ pyLower p.1) →
      (fields.map (fun p => pyLower p.1)).Nodup →
      fields.foldl
          (fun member p => dictInsert member (pyLower p.1) (extractField p.1 p.2 row)) acc
        = acc ++ fields.map (fun p => (pyLower p.1, extractField p.1 p.2 row)) := by
  induction fields with
  | nil => intro acc _ _; simp
  | cons f rest ih =>
    intro acc hdisj hnd
    simp only [List.map_cons, List.nodup_cons] at hnd
    simp only [List.foldl_cons, List.map_cons]
    rw [dictInsert_fresh acc (pyLower f.1) _
      (fun q hq => hdisj f (List.mem_cons_self f rest) q hq)]
    rw [ih (acc ++ [(pyLower f.1, extractField f.1 f.2 row)]) ?_ hnd.2]
    · simp
    · intro p hp q hq
      rcases List.mem_append.1 hq with hq' | hq'
      · exact hdisj p (List.mem_cons_of_mem f hp) q hq'
      · have hqe : q = (pyLower f.1, extractField f.1 f.2 row) := by simpa using hq'
        subst hqe
        simp only [ne_eq]
        intro hEq
        exact hnd.1 (by rw [hEq]; exact List.mem_map_of_mem _ hp)

/-- With pairwise-distinct lower-cased field names, a row's record is the
association list of `(lowered name, extracted value)` pairs in
configuration order. -/
lemma mkRecord_eq_map (fields : List (String × FieldConfig)) (row : Row)
    (hnd : (fields.map (fun p => pyLower p.1)).Nodup) :
    mkRecord fields row = fields.map (fun p => (pyLower p.1, extractField p.1 p.2 row)) := by
  unfold mkRecord
  rw [foldl_dictInsert_fresh row fields [] (by intro p _ q hq; cases hq) hnd]
  simp

lemma lookup_map_fields (row : Row) :
    ∀ (fields : List (String × FieldConfig)) (fn : String) (fc : FieldConfig),
      (fn, fc) ∈ fields →
      (fields.map (fun p => pyLower p.1)).Nodup →
      (fields.map (fun p => (pyLower p.1, extractField p.1 p.2 row))).lookup (pyLower fn)
        = some (extractField fn fc row)
  | [], fn, fc, hmem, _ => by cases hmem
  | f :: rest, fn, fc, hmem, hnd => by
    simp only [List.map_cons, List.nodup_cons] at hnd
    simp only [List.map_cons, List.lookup_cons]
    rcases List.mem_cons.1 hmem with heq | hmem'
    · rw [← heq]
      simp
    · have hfn : pyLower fn ∈ rest.map (fun p => pyLower p.1) :=
        List.mem_map_of_mem _ hmem'
      have hne : (pyLower fn == pyLower f.1) = false :=
        beq_eq_false_iff_ne.2 (fun hEq => hnd.1 (hEq ▸ hfn))
      simp only [hne]
      exact lookup_map_fields row rest fn fc hmem' hnd.2

lemma lookup_mkRecord (row : Row) (fields : List (String × FieldConfig))
    (fn : String) (fc : FieldConfig) (hmem : (fn, fc) ∈ fields)
    (hnd : (fields.map (fun p => pyLower p.1)).Nodup) :
    (mkRecord fields row).lookup (pyLower fn) = some (extractField fn fc row) := by
  rw [mkRecord_eq_map fields row hnd]
  exact lookup_map_fields row fields fn fc hmem hnd

/-- C5: when a container is selected, `scrape_generic_table` emits exactly
one record per element matching `row_selector` in that container — no row
is dropped, whatever the per-field misses, including rows where every
field misses — and a field whose selector matches nothing within its row
is stored as an absent (`none`) value under its lower-cased name. -/
theorem extract_emits_every_row (soup : Soup) (cfg : TableConfig) (table : Container)
    (hne : soupSelect soup cfg.table_container_selector ≠ [])
    (hidx : cfg.wrapper_index.getD 0 <
      ((soupSelect soup cfg.table_container_selector).length : Int))
    (hget : pyListGet (soupSelect soup cfg.table_container_selector)
        (cfg.wrapper_index.getD 0) = some table)
    (hnd : (cfg.field_selectors.map (fun p => pyLower p.1)).Nodup) :
    scrape_generic_table soup cfg =
      Except.ok ((containerSelect table cfg.row_selector).map (mkRecord cfg.field_selectors)) ∧
    ((containerSelect table cfg.row_selector).map (mkRecord cfg.field_selectors)).length =
      (containerSelect table cfg.row_selector).length ∧
    ∀ row ∈ containerSelect table cfg.row_selector,
      ∀ fn fc, (fn, fc) ∈ cfg.field_selectors →
        rowSelectOne row (fieldSelector fc) = none →
        (mkRecord cfg.field_selectors row).lookup (pyLower fn) = some none := by
  refine ⟨?_, by simp, ?_⟩
  · unfold scrape_generic_table
    rw [if_neg (by push_neg; exact ⟨hne, hidx⟩)]
    rw [hget]
  · intro row _ fn fc hmem hmiss
    rw [lookup_mkRecord row cfg.field_selectors fn fc hmem hnd]
    unfold extractField
    rw [hmiss]

/-- Witness for C5: a two-row container where one row misses the `email`
field and the other misses every field. -/
theorem extract_emits_every_row_witness :
    scrape_generic_table
        [("div.staff",
          [[("tr",
            [[("td", { attrs := [], text := "Jane" })], []])]])]
        { table_container_selector := "div.staff", wrapper_index := none,
          row_selector := "tr",
          field_selectors := [("Name", .plain "td"), ("email", .plain "a")] } =
      Except.ok
        ((containerSelect [("tr", [[("td", { attrs := [], text := "Jane" })], []])] "tr").map
          (mkRecord [("Name", .plain "td"), ("email", .plain "a")])) ∧
    ((containerSelect [("tr", [[("td", { attrs := [], text := "Jane" })], []])] "tr").map
        (mkRecord [("Name", .plain "td"), ("email", .plain "a")])).length =
      (containerSelect [("tr", [[("td", { attrs := [], text := "Jane" })], []])] "tr").length ∧
    ∀ row ∈ containerSelect [("tr", [[("td", { attrs := [], text := "Jane" })], []])] "tr",
      ∀ fn fc, (fn, fc) ∈ [(("Name" : String), FieldConfig.plain "td"), ("email", .plain "a")] →
        rowSelectOne row (fieldSelector fc) = none →
        (mkRecord [("Name", .plain "td"), ("email", .plain "a")] row).lookup (pyLower fn) =
          some none :=
  extract_emits_every_row _ _ _ (by decide) (by decide) (by decide) (by decide)

lemma lookup_isSome_iff (m : Record) (k : String) :
    ((m.lookup k).isSome = true) ↔ k ∈ m.map Prod.fst := by
  induction m with
  | nil => simp
  | cons p rest ih =>
    obtain ⟨k0, v0⟩ := p
    simp only [List.lookup_cons, List.map_cons, List.mem_cons]
    cases hk : (k == k0) with
    | false =>
      have hne : k ≠ k0 := beq_eq_false_iff_ne.1 hk
      simp only [hk, ih]
      constructor
      · exact fun h => Or.inr h
      · rintro (h | h)
        · exact absurd h hne
        · exact h
    | true =>
      have heq : k = k0 := eq_of_beq hk
      simp [hk, heq]

lemma mem_keys_dictInsert (m : Record) (k : String) (v : Option String) (k' : String) :
    k' ∈ (dictInsert m k v).map Prod.fst ↔ k' ∈ m.map Prod.fst ∨ k' = k := by
  unfold dictInsert
  by_cases h : (m.any (fun p => p.1 == k)) = true
  · rw [if_pos h]
    simp only [List.any_eq_true, beq_iff_eq] at h
    obtain ⟨p0, hp0, hp0k⟩ := h
    constructor
    · intro hk'
      obtain ⟨q, hq, hq1⟩ := List.mem_map.1 hk'
      obtain ⟨p, hp, hpq⟩ := List.mem_map.1 hq
      by_cases hpk : p.1 = k
      · right
        rw [← hq1, ← hpq]
        simp [hpk]
      · left
        refine List.mem_map.2 ⟨p, hp, ?_⟩
        rw [← hq1, ← hpq]
        simp [hpk]
    · rintro (hk' | hk'k)
      · obtain ⟨p, hp, hpk'⟩ := List.mem_map.1 hk'
        by_cases hpk : p.1 = k
        · refine List.mem_map.2 ⟨(k, v), List.mem_map.2 ⟨p, hp, by simp [hpk]⟩, ?_⟩
          simp [← hpk', hpk]
        · exact List.mem_map.2 ⟨p, List.mem_map.2 ⟨p, hp, by simp [hpk]⟩, hpk'⟩
      · rw [hk'k]
        exact List.mem_map.2 ⟨(k, v), List.mem_map.2 ⟨p0, hp0, by simp [hp0k]⟩, rfl⟩
  · rw [if_neg h]
    simp

lemma mem_keys_mkRecord (fields : List (String × FieldConfig)) (row : Row) (k : String) :
    k ∈ (mkRecord fields row).map Prod.fst ↔ k ∈ fields.map (fun p => pyLower p.1) := by
  unfold mkRecord
  have main : ∀ (fs : List (String × FieldConfig)) (acc : Record),
      k ∈ ((fs.foldl
            (fun member p => dictInsert member (pyLower p.1) (extractField p.1 p.2 row))
            acc).map Prod.fst)
        ↔ k ∈ acc.map Prod.fst ∨ k ∈ fs.map (fun p => pyLower p.1) := by
    intro fs
    induction fs with
    | nil => intro acc; simp
    | cons f rest ih =>
      intro acc
      simp only [List.foldl_cons, List.map_cons, List.mem_cons]
      rw [ih, mem_keys_dictInsert]
      tauto
  rw [main fields []]
  simp

/-- C7: every record produced for a table block has exactly the
lower-cased `field_selectors` keys as its field-name set — a key is
present in the record if and only if it is a lower-cased configured field
name, so selector misses never drop a key (they store an absent value)
and never raise. -/
theorem record_field_name_set (soup : Soup) (cfg : TableConfig) (recs : List Record)
    (hok : scrape_generic_table soup cfg = Except.ok recs) :
    ∀ rec ∈ recs, ∀ k : String,
      ((rec.lookup k).isSome = true) ↔
        k ∈ cfg.field_selectors.map (fun p => pyLower p.1) := by
  intro rec hrec k
  unfold scrape_generic_table at hok
  by_cases hg : (soupSelect soup cfg.table_container_selector = [] ∨
      ((soupSelect soup cfg.table_container_selector).length : Int) ≤
        cfg.wrapper_index.getD 0)
  · rw [if_pos hg] at hok
    simp only [Except.ok.injEq] at hok
    rw [← hok] at hrec
    cases hrec
  · rw [if_neg hg] at hok
    cases hpg : pyListGet (soupSelect soup cfg.table_container_selector)
        (cfg.wrapper_index.getD 0) with
    | none =>
      rw [hpg] at hok
      simp at hok
    | some table =>
      rw [hpg] at hok
      simp only [Except.ok.injEq] at hok
      rw [← hok] at hrec
      obtain ⟨row, hrow, rfl⟩ := List.mem_map.1 hrec
      rw [lookup_isSome_iff]
      exact mem_keys_mkRecord cfg.field_selectors row k

/-- Witness for C7 on a concrete two-field table block, checked at the
all-absent record and the key `email`. -/
theorem record_field_name_set_witness :
    ((([(("name" : String), (none : Option String)), ("email", none)] : Record).lookup
        "email").isSome = true) ↔
      "email" ∈ ([(("Name" : String), FieldConfig.plain "td"),
                  ("email", FieldConfig.plain "a.mail")].map (fun p => pyLower p.1)) :=
  record_field_name_set
    [("div.staff",
      [[("tr",
        [[("a.mail", { attrs := [("href", "mailto:jane@doe.edu")], text := "Jane" })],
         []])]])]
    { table_container_selector := "div.staff", wrapper_index := some 0,
      row_selector := "tr",
      field_selectors := [("Name", .plain "td"), ("email", .plain "a.mail")] }
    _ rfl [("name", none), ("email", none)] (by decide) "email"

/-- C9: a negative `wrapper_index` whose magnitude does not exceed the
match count slips past the `len(all_tables) <= table_index` guard (which
never triggers for a negative index on a non-empty match list), and
Python list indexing then selects the container counted from the end of
the match list — `length + idx` from the front, the last match when
`idx = -1` — and extraction proceeds from that container. -/
theorem negative_wrapper_index_counts_from_end (soup : Soup) (cfg : TableConfig)
    (idx : Int) (hidx : cfg.wrapper_index = some idx) (hneg : idx < 0)
    (hmag : -idx ≤ ((soupSelect soup cfg.table_container_selector).length : Int)) :
    ¬(soupSelect soup cfg.table_container_selector = [] ∨
        ((soupSelect soup cfg.table_container_selector).length : Int) ≤
          cfg.wrapper_index.getD 0) ∧
    ∃ table,
      (soupSelect soup cfg.table_container_selector).get?
          (((soupSelect soup cfg.table_container_selector).length : Int) + idx).toNat =
        some table ∧
      scrape_generic_table soup cfg =
        Except.ok
          ((containerSelect table cfg.row_selector).map (mkRecord cfg.field_selectors)) ∧
      (idx = -1 → (soupSelect soup cfg.table_container_selector).getLast? = some table) := by
  have hgd : cfg.wrapper_index.getD 0 = idx := by rw [hidx]; rfl
  set l := soupSelect soup cfg.table_container_selector with hl
  have hlen : 0 < l.length := by omega
  have hn : ((l.length : Int) + idx).toNat < l.length := by omega
  have hget : l.get? ((l.length : Int) + idx).toNat = some (l.get ⟨_, hn⟩) :=
    List.get?_eq_get hn
  have hguard : ¬(l = [] ∨ (l.length : Int) ≤ cfg.wrapper_index.getD 0) := by
    rw [hgd]
    push_neg
    exact ⟨List.length_pos.1 hlen, by omega⟩
  refine ⟨hguard, l.get ⟨_, hn⟩, hget, ?_, ?_⟩
  · unfold scrape_generic_table
    rw [← hl, if_neg hguard]
    have hpy : pyListGet l (cfg.wrapper_index.getD 0) = some (l.get ⟨_, hn⟩) := by
      rw [hgd]
      unfold pyListGet
      rw [if_neg (by omega), if_pos (by omega)]
      exact hget
    rw [hpy]
  · intro h1
    rw [List.getLast?_eq_getElem?]
    have hix : l.length - 1 = ((l.length : Int) + idx).toNat := by omega
    rw [hix, ← List.get?_eq_getElem?]
    exact hget

/-- Rows for the C9 witness: an empty first container and a one-row second
container, both matched by the same selector. -/
def soup9 : Soup :=
  [("table.roster",
    [[("tr", [])],
     [("tr", [[("td", { attrs := [], text := "Jane" })]])]])]

def cfg9 : TableConfig :=
  { table_container_selector := "table.roster", wrapper_index := some (-1),
    row_selector := "tr", field_selectors := [("name", .plain "td")] }

/-- Witness for C9: index `-1` on a two-match list selects the second
(last) container. -/
theorem negative_wrapper_index_counts_from_end_witness :
    ¬(soupSelect soup9 cfg9.table_container_selector = [] ∨
        ((soupSelect soup9 cfg9.table_container_selector).length : Int) ≤
          cfg9.wrapper_index.getD 0) ∧
    ∃ table,
      (soupSelect soup9 cfg9.table_container_selector).get?
          (((soupSelect soup9 cfg9.table_container_selector).length : Int) + (-1)).toNat =
        some table ∧
      scrape_generic_table soup9 cfg9 =
        Except.ok
          ((containerSelect table cfg9.row_selector).map (mkRecord cfg9.field_selectors)) ∧
      ((-1 : Int) = -1 → (soupSelect soup9 cfg9.table_container_selector).getLast? = some table) :=
  negative_wrapper_index_counts_from_end soup9 cfg9 (-1) rfl (by decide) (by decide)

/-! ## Orchestrator theorems -/

lemma scrape_all_go (fetch : String → String) (soupOf : String → Soup)
    (sites : List (String × SiteConfig)) :
    ∀ acc : List (List Record),
      sites.foldl
          (fun acc p =>
            match parse_site fetch soupOf p.1 p.2 with
            | .ok d => acc ++ [d]
            | .error _ => acc)
          acc
        = acc ++ sites.filterMap (fun p => (parse_site fetch soupOf p.1 p.2).toOption) := by
  induction sites with
  | nil => intro acc; simp
  | cons s rest ih =>
    intro acc
    simp only [List.foldl_cons, List.filterMap_cons]
    cases hp : parse_site fetch soupOf s.1 s.2 with
    | ok d => simp [hp, ih, Except.toOption]
    | error e => simp [hp, ih, Except.toOption]

/-- C8: the orchestrator completes as a total fold whatever the per-site
outcomes; a site whose `parse_site` raises is skipped at the per-site
boundary, and the collected results are exactly the tables of the sites
that succeeded, in order — so every successful site's table is in the
final collection. -/
theorem scrape_all_isolates_failures (fetch : String → String) (soupOf : String → Soup)
    (sites : List (String × SiteConfig)) :
    scrape_all fetch soupOf sites =
      sites.filterMap (fun p => (parse_site fetch soupOf p.1 p.2).toOption) ∧
    ∀ p ∈ sites, ∀ d, parse_site fetch soupOf p.1 p.2 = Except.ok d →
      d ∈ scrape_all fetch soupOf sites := by
  have h := scrape_all_go fetch soupOf sites []
  constructor
  · simpa [scrape_all] using h
  · intro p hp d hd
    have he : scrape_all fetch soupOf sites =
        sites.filterMap (fun p => (parse_site fetch soupOf p.1 p.2).toOption) := by
      simpa [scrape_all] using h
    rw [he]
    exact List.mem_filterMap.2 ⟨p, hp, by rw [hd]; rfl⟩

/-- A healthy one-table site for the C8 witness. -/
def site8ok : SiteConfig :=
  { handler := false, url := some "https://ok.edu/roster",
    entries := [("COACHES_TABLE",
      { table_container_selector := "div.staff", wrapper_index := none,
        row_selector := "tr", field_selectors := [("name", .plain "td")] })] }

/-- A site whose `parse_site` raises (zero usable table blocks after a
successful fetch), for the C8 witness. -/
def site8bad : SiteConfig :=
  { handler := false, url := some "https://bad.edu/roster", entries := [] }

def sites8 : List (String × SiteConfig) :=
  [("A", site8ok), ("B", site8ok), ("C", site8bad), ("D", site8ok), ("E", site8ok)]

def fetch8 : String → String := fun _ => "<html>roster</html>"

def soup8 : String → Soup :=
  fun _ => [("div.staff", [[("tr", [[("td", { attrs := [], text := "Jane" })]])]])]

/-- Witness for C8: five sites, one of which raises; the run completes and
collects exactly the four successes. -/
theorem scrape_all_isolates_failures_witness :
    scrape_all fetch8 soup8 sites8 =
      sites8.filterMap (fun p => (parse_site fetch8 soup8 p.1 p.2).toOption) ∧
    ∀ p ∈ sites8, ∀ d, parse_site fetch8 soup8 p.1 p.2 = Except.ok d →
      d ∈ scrape_all fetch8 soup8 sites8 :=
  scrape_all_isolates_failures fetch8 soup8 sites8

end WbbScraper
